import Mathlib

/- Shallow embedding of the step logic of the CMST (cooperative minimum
   spanning tree) environment from jumanji/environments/routing/cmst/env.py.

   JAX arrays are modelled as lists of integers.  Reads with a traced index
   follow the JAX gather semantics: a negative index wraps (counts from the
   end) and an out-of-range index is clamped into range.  Writes with a
   traced index follow the JAX scatter semantics: an out-of-range update is
   dropped.  Reads and writes with a concrete Python loop index are modelled
   as plain list access.  The per-step tie-break permutation, drawn in the
   source by jax.random.permutation from the step key, is passed to the
   functions as an explicit parameter.  The reward computation, the
   observation encoding and the action mask do not affect the claims below
   and are not modelled. -/

namespace CMST

def UTILITY_NODE : Int := -1

def EMPTY_NODE : Int := -1

def INVALID_NODE : Int := -1

def DUMMY_NODE : Int := -10

def INVALID_CHOICE : Int := -1

def INVALID_TIE_BREAK : Int := -2

def INVALID_ALREADY_TRAVERSED : Int := -3

/-- JAX-style read of a 1-d integer array at a traced integer index:
negative indices wrap, out-of-range indices are clamped. -/
def jidx (xs : List Int) (i : Int) : Int :=
  if xs.length = 0 then EMPTY_NODE
  else
    let n : Int := (xs.length : Int)
    let j : Int := if i < 0 then i + n else i
    let k : Int := min (max j 0) (n - 1)
    xs.getD k.toNat EMPTY_NODE

/-- JAX-style read of the row of a 2-d array at a traced integer index:
negative indices wrap, out-of-range indices are clamped. -/
def jidxRow (m : List (List Int)) (i : Int) : List Int :=
  if m.length = 0 then []
  else
    let n : Int := (m.length : Int)
    let j : Int := if i < 0 then i + n else i
    let k : Int := min (max j 0) (n - 1)
    m.getD k.toNat []

/-- JAX-style scatter write at a traced integer index: negative indices
wrap, out-of-range updates are dropped. -/
def jset (xs : List Int) (i v : Int) : List Int :=
  let n : Int := (xs.length : Int)
  let j : Int := if i < 0 then i + n else i
  if j < 0 ∨ n ≤ j then xs else xs.set j.toNat v

/-- The state fields of cmst.types.State that the step logic reads or
writes (adj_matrix, action_mask and the PRNG key are not used by the
properties below). -/
structure EnvState where
  node_types : List Int
  connected_nodes : List (List Int)
  connected_nodes_index : List (List Int)
  position_index : List Nat
  positions : List Int
  node_edges : List (List (List Int))
  finished_agents : List Bool
  nodes_to_connect : List (List Int)
  step_count : Nat
deriving Repr, DecidableEq

/-- Embeds `_get_agent_node` (env.py lines 580-584): resolve an agent's
requested action index to a destination node through its own adjacency
view `node_edges[position, action]`. -/
def getAgentNode (node_edges : List (List Int)) (position action : Int) : Int :=
  jidx (jidxRow node_edges position) action

/-- Embeds the `jax.vmap(_get_agent_node)` call (env.py line 586): the
resolved destination node of each agent. -/
def resolveNodes (numAgents : Nat) (node_edges : List (List (List Int)))
    (positions actions : List Int) : List Int :=
  (List.range numAgents).map (fun a =>
    getAgentNode (node_edges.getD a []) (positions.getD a 0) (actions.getD a 0))

/-- Embeds `modify_action_if_agent_target_node_is_selected` (env.py lines
600-631), the body of the tie-break while loop.  The loop state is the
pair `(added_nodes, new_actions)`; `agent_i` is the permutation entry for
this iteration.  The `jax.lax.switch` index is
`is_invalid_node + node_is_not_selected * 2` with branches
[tie-break, nothing, grant, nothing]. -/
def tieBreakBody (actions nodes : List Int) (st : List Int × List Int)
    (agent_i : Nat) : List Int × List Int :=
  let added := st.1
  let acts := st.2
  let nodeI := nodes.getD agent_i EMPTY_NODE
  let isInvalidNode : Nat := if nodeI = EMPTY_NODE then 1 else 0
  let notSelected : Nat := if (added.filter (fun x => x = nodeI)).length = 0 then 1 else 0
  match isInvalidNode + notSelected * 2 with
  | 0 => (added.set agent_i INVALID_TIE_BREAK, acts.set agent_i INVALID_TIE_BREAK)
  | 2 => (added.set agent_i nodeI, acts.set agent_i (actions.getD agent_i INVALID_CHOICE))
  | _ => (added, acts)

/-- Embeds the `jax.lax.while_loop` of `_trim_duplicated_invalid_actions`
(env.py lines 633-644): fold the tie-break body over the permutation,
starting from `added_nodes = DUMMY_NODE * ones(num_agents)` and
`new_actions = INVALID_CHOICE * ones_like(action)`. -/
def tieBreakLoop (numAgents : Nat) (perm : List Nat) (actions nodes : List Int) :
    List Int × List Int :=
  perm.foldl (tieBreakBody actions nodes)
    (List.replicate numAgents DUMMY_NODE, List.replicate actions.length INVALID_CHOICE)

/-- Embeds `mask_visited_nodes` (env.py lines 646-655). -/
def maskVisitedNodes (node_visited oldaction : Int) : Int :=
  if node_visited ≠ EMPTY_NODE then INVALID_ALREADY_TRAVERSED else oldaction

/-- Embeds `_trim_duplicated_invalid_actions` (env.py lines 563-667):
resolve the requested indices to nodes, run the tie-break loop over the
permutation, override the action of every agent whose resolved node is in
its own `connected_nodes_index` (read with the JAX gather semantics, so a
`-1` node wraps to the last column), and mask finished agents with
`final_actions * ~finished_agents - finished_agents`. -/
def trimDuplicatedInvalidActions (numAgents : Nat) (st : EnvState)
    (actions : List Int) (perm : List Nat) : List Int × List Int :=
  let nodes := resolveNodes numAgents st.node_edges st.positions actions
  let acts := (tieBreakLoop numAgents perm actions nodes).2
  let masked := (List.range numAgents).map (fun agent =>
    maskVisitedNodes
      (jidx (st.connected_nodes_index.getD agent []) (nodes.getD agent EMPTY_NODE))
      (acts.getD agent INVALID_CHOICE))
  let finals := (List.range numAgents).map (fun agent =>
    let f := masked.getD agent INVALID_CHOICE
    let fin := st.finished_agents.getD agent false
    f * (if fin then 0 else 1) - (if fin then 1 else 0))
  (finals, nodes)

/-- Embeds `_update_conected_nodes` (env.py lines 669-690): increment the
position index, write the node there (scatter semantics: a write past the
end of the buffer is dropped), and record the node in
`connected_nodes_index`. -/
def updateConnectedNodes (connected_nodes connected_node_index : List Int)
    (node : Int) (index : Nat) : List Int × List Int × Int × Nat :=
  let index1 := index + 1
  (connected_nodes.set index1 node, jset connected_node_index node node, node, index1)

/-- Embeds `step_agent_fn` (env.py lines 297-325): an action equal to
INVALID_CHOICE or INVALID_TIE_BREAK, or a node equal to INVALID_NODE,
leaves the agent where it is; every other action moves the agent to the
resolved node and records it. -/
def stepAgentFn (st : EnvState) (connected_nodes conn_index : List Int)
    (action node : Int) (index : Nat) (agent_id : Nat) :
    List Int × List Int × Int × Nat :=
  if (action ≠ INVALID_CHOICE ∧ action ≠ INVALID_TIE_BREAK) ∧ node ≠ INVALID_NODE then
    updateConnectedNodes connected_nodes conn_index node index
  else
    (connected_nodes, conn_index, st.positions.getD agent_id 0, index)

/-- Embeds `update_edges` inside `_update_active_edges` (env.py lines
538-542): `node_edges * zero_mask - ones_inds`, elementwise. -/
def updEdgesEntry (e node : Int) : Int :=
  e * (if e = node then 0 else 1) - (if e = node then 1 else 0)

def updateEdges (m : List (List Int)) (node : Int) : List (List Int) :=
  m.map (fun row => row.map (fun e => updEdgesEntry e node))

/-- Embeds `_update_active_edges` (env.py lines 525-561): for every agent
standing on a utility node, remove the edges into that node from every
other agent's view. -/
def updateActiveEdges (numAgents : Nat) (node_edges : List (List (List Int)))
    (position node_types : List Int) : List (List (List Int)) :=
  (List.range numAgents).foldl
    (fun active agent =>
      let node := position.getD agent 0
      let cond := jidx node_types node = UTILITY_NODE
      (List.range numAgents).foldl
        (fun active2 agent2 =>
          if agent ≠ agent2 then
            active2.set agent2
              (if cond then updateEdges (active2.getD agent2 []) node
               else active2.getD agent2 [])
          else active2)
        active)
    node_edges

/-- Embeds `done_fun` inside `get_finished_agents` (env.py lines 702-706):
`sum(isin(nodes, connected_nodes)) == n_comps`. -/
def doneFun (nodes connected_nodes : List Int) (n_comps : Nat) : Bool :=
  (nodes.filter (fun x => connected_nodes.contains x)).length = n_comps

/-- Embeds `get_finished_agents` (env.py lines 692-717). -/
def getFinishedAgents (numAgents : Nat) (st : EnvState) (numNodesPerAgent : Nat) :
    List Bool :=
  (List.range numAgents).map (fun agent =>
    doneFun (st.nodes_to_connect.getD agent []) (st.connected_nodes.getD agent [])
      numNodesPerAgent)

/-- The three kinds of timestep `_state_to_timestep` can build. -/
inductive StepKind where
  | transition
  | truncation
  | termination
deriving Repr, DecidableEq

/-- Embeds the `jax.lax.switch` of `_state_to_timestep` (env.py lines
440-455): branch index `horizon_reached + is_done * 2`, clamped by
`lax.switch` into the branch range, selecting transition / truncation /
termination. -/
def timestepSwitch (horizonReached isDone : Bool) : StepKind :=
  match min ((if horizonReached then 1 else 0) + (if isDone then 1 else 0) * 2) 2 with
  | 0 => StepKind.transition
  | 1 => StepKind.truncation
  | _ => StepKind.termination

structure StepResult where
  state : EnvState
  actions : List Int
  kind : StepKind
deriving Repr, DecidableEq

/-- Embeds `step` together with `_state_to_timestep` (env.py lines 285-374
and 395-457): trim the actions, run `step_agent_fn` for every agent (the
source writes each agent's slot of a zeros_like copy; every slot is
written, which is the per-agent map below), update the active edges from
the new positions, recompute the finished flags from the new
connected_nodes, increment the step counter, and select the timestep kind
from `step_count >= step_limit` and `finished_agents.all()`. -/
def envStep (numAgents stepLimit numNodesPerAgent : Nat) (st : EnvState)
    (action : List Int) (perm : List Nat) : StepResult :=
  let tr := trimDuplicatedInvalidActions numAgents st action perm
  let finalActions := tr.1
  let nextNodes := tr.2
  let upd := (List.range numAgents).map (fun agent =>
    stepAgentFn st (st.connected_nodes.getD agent [])
      (st.connected_nodes_index.getD agent [])
      (finalActions.getD agent INVALID_CHOICE) (nextNodes.getD agent INVALID_NODE)
      (st.position_index.getD agent 0) agent)
  let st1 : EnvState :=
    { st with
      connected_nodes := upd.map (fun r => r.1)
      connected_nodes_index := upd.map (fun r => r.2.1)
      positions := upd.map (fun r => r.2.2.1)
      position_index := upd.map (fun r => r.2.2.2)
      node_edges := updateActiveEdges numAgents st.node_edges
        (upd.map (fun r => r.2.2.1)) st.node_types }
  let finished := getFinishedAgents numAgents st1 numNodesPerAgent
  let st2 : EnvState := { st1 with
    finished_agents := finished
    step_count := st.step_count + 1 }
  { state := st2
    actions := finalActions
    kind := timestepSwitch (decide (stepLimit ≤ st2.step_count)) (finished.all (fun b => b)) }

/-- Reads one adjacency entry of agent `i`'s view: row `v`, column `w`. -/
def entryAt (E : List (List (List Int))) (i v w : Nat) : Int :=
  ((E.getD i []).getD v []).getD w (-1)

/-- The nodes whose edges the update removes from viewer `k`: positions of
the claimers `j` in `M` with `j ≠ k` that stand on a utility node. -/
def claimedInL (M : List Nat) (pos nt : List Int) (k : Nat) (e : Int) : Bool :=
  M.any (fun j =>
    decide (j ≠ k) && decide (pos.getD j 0 = e)
      && decide (jidx nt (pos.getD j 0) = UTILITY_NODE))

/-- The outer-loop body of `_update_active_edges` with the let bindings
expanded, to reason about the double loop one viewer slot at a time. -/
def outerBodyFn (numAgents : Nat) (pos nt : List Int)
    (active : List (List (List Int))) (agent : Nat) : List (List (List Int)) :=
  (List.range numAgents).foldl
    (fun active2 agent2 =>
      if agent ≠ agent2 then
        active2.set agent2
          (if jidx nt (pos.getD agent 0) = UTILITY_NODE then
            updateEdges (active2.getD agent2 []) (pos.getD agent 0)
           else active2.getD agent2 [])
      else active2)
    active

/-- Modelled on the spec words (section 4.2, steps 2-3), for comparison
with the source tie-break loop: process the agents in the permutation
order, maintaining the list of nodes already granted this step; an agent
whose resolved destination is not yet granted is granted it (its requested
action index is recorded as the ACCEPTED mark and the destination joins
the granted set); an agent whose resolved destination is already granted
is marked INVALID_TIE_BREAK; an agent with no resolved destination keeps
the INVALID_CHOICE mark. -/
def specTieBreakGo (actions nodes : List Int) :
    List Nat → List Int → List Int → List Int
  | [], _granted, marks => marks
  | a :: rest, granted, marks =>
    let dest := nodes.getD a EMPTY_NODE
    if dest = EMPTY_NODE then specTieBreakGo actions nodes rest granted marks
    else if dest ∈ granted then
      specTieBreakGo actions nodes rest granted (marks.set a INVALID_TIE_BREAK)
    else
      specTieBreakGo actions nodes rest (granted ++ [dest])
        (marks.set a (actions.getD a INVALID_CHOICE))

def specTieBreak (perm : List Nat) (actions nodes : List Int) : List Int :=
  specTieBreakGo actions nodes perm [] (List.replicate actions.length INVALID_CHOICE)

/-- Invariant of the tie-break loop state `(added_nodes, new_actions)`:
an agent holding a non-negative action mark holds its resolved node in its
`added_nodes` slot, and the resolved nodes of agents holding non-negative
marks are pairwise distinct. -/
def TieInv (actions nodes : List Int) (st : List Int × List Int) : Prop :=
  st.1.length = actions.length ∧ st.2.length = actions.length
  ∧ (∀ b, 0 ≤ st.2.getD b (-1) → st.1.getD b DUMMY_NODE = nodes.getD b EMPTY_NODE)
  ∧ (∀ b c, b ≠ c → 0 ≤ st.2.getD b (-1) → 0 ≤ st.2.getD c (-1) →
      nodes.getD b EMPTY_NODE ≠ nodes.getD c EMPTY_NODE)

/-- A 3-node path graph 0 - 1 - 2 in the node-valued edge encoding of
`state.node_edges`. -/
def path3 : List (List Int) := [[-1, 1, -1], [0, -1, 2], [-1, 1, -1]]

/-- Two agents at nodes 0 and 1 requesting distinct free nodes 1 and 2. -/
def c1WitnessState : EnvState := {
  node_types := [0, 0, 0]
  connected_nodes := [[0, -1, -1, -1], [1, -1, -1, -1]]
  connected_nodes_index := [[0, -1, -1], [-1, 1, -1]]
  position_index := [0, 0]
  positions := [0, 1]
  node_edges := [path3, path3]
  finished_agents := [false, false]
  nodes_to_connect := [[0, 1], [1, 2]]
  step_count := 1 }

/-- Two unfinished agents at nodes 0 and 2 both requesting node 1. -/
def c2WitnessState : EnvState := {
  node_types := [0, 0, 0]
  connected_nodes := [[0, -1, -1, -1], [2, -1, -1, -1]]
  connected_nodes_index := [[0, -1, -1], [-1, -1, 2]]
  position_index := [0, 0]
  positions := [0, 2]
  node_edges := [path3, path3]
  finished_agents := [false, false]
  nodes_to_connect := [[0, 1], [1, 2]]
  step_count := 1 }

/-- One unfinished agent at node 0 that already visited node 1 and
requests it again. -/
def c3State : EnvState := {
  node_types := [0, 0, 0]
  connected_nodes := [[0, 1, -1, -1]]
  connected_nodes_index := [[0, 1, -1]]
  position_index := [1]
  positions := [0]
  node_edges := [path3]
  finished_agents := [false]
  nodes_to_connect := [[0, 1, 2]]
  step_count := 1 }

/-- Agent 0 is finished, agent 1 is not; both stand adjacent to node 1 and
request it. -/
def c4State : EnvState := {
  node_types := [0, 0, 0]
  connected_nodes := [[0, -1, -1, -1], [2, -1, -1, -1]]
  connected_nodes_index := [[0, -1, -1], [-1, -1, 2]]
  position_index := [0, 0]
  positions := [0, 2]
  node_edges := [path3, path3]
  finished_agents := [true, false]
  nodes_to_connect := [[0], [1]]
  step_count := 1 }

/-- One unfinished agent at node 0 with no edges at all, after having
visited node 2 (the last node row). -/
def c7State : EnvState := {
  node_types := [0, 0, 0]
  connected_nodes := [[0, 2, -1, -1]]
  connected_nodes_index := [[0, -1, 2]]
  position_index := [1]
  positions := [0]
  node_edges := [[[-1, -1, -1], [-1, -1, -1], [-1, -1, -1]]]
  finished_agents := [false]
  nodes_to_connect := [[0, 1, 2]]
  step_count := 1 }

/-- One unfinished agent at node 0 with no edges at all and node 2 (the
last node row) not visited. -/
def c7WitnessState : EnvState := {
  node_types := [0, 0, 0]
  connected_nodes := [[0, -1, -1, -1]]
  connected_nodes_index := [[0, -1, -1]]
  position_index := [0]
  positions := [0]
  node_edges := [[[-1, -1, -1], [-1, -1, -1], [-1, -1, -1]]]
  finished_agents := [false]
  nodes_to_connect := [[0, 1, 2]]
  step_count := 1 }

/-- One unfinished agent one step before the step limit of 2. -/
def c8State : EnvState := {
  node_types := [0, 0, 0]
  connected_nodes := [[0, -1]]
  connected_nodes_index := [[0, -1, -1]]
  position_index := [0]
  positions := [0]
  node_edges := [path3]
  finished_agents := [false]
  nodes_to_connect := [[0, 1, 2]]
  step_count := 1 }

/-- One finished agent whose finished flag agrees with its data. -/
def c8DoneState : EnvState := {
  node_types := [0, 0, 0]
  connected_nodes := [[0, -1]]
  connected_nodes_index := [[0, -1, -1]]
  position_index := [0]
  positions := [0]
  node_edges := [path3]
  finished_agents := [true]
  nodes_to_connect := [[0]]
  step_count := 1 }

/-- One unfinished agent whose connected-nodes buffer (capacity
step_limit = 2) is full after the initial entry and one accepted step. -/
def c10State : EnvState := {
  node_types := [0, 0, 0]
  connected_nodes := [[0, 1]]
  connected_nodes_index := [[0, 1, -1]]
  position_index := [1]
  positions := [1]
  node_edges := [path3]
  finished_agents := [false]
  nodes_to_connect := [[0, 1, 2]]
  step_count := 1 }

/- Helper lemmas about list access. -/

lemma getD_set_ne {α : Type} (l : List α) {i j : Nat} (h : i ≠ j) (v d : α) :
    (l.set i v).getD j d = l.getD j d := by
  simp [List.getD_eq_getElem?_getD, List.getElem?_set_ne h]

lemma getD_set_self {α : Type} (l : List α) {i : Nat} (h : i < l.length) (v d : α) :
    (l.set i v).getD i d = v := by
  simp [List.getD_eq_getElem?_getD, List.getElem?_set_self h]

lemma getD_replicate_lt {α : Type} {n i : Nat} (h : i < n) (a d : α) :
    (List.replicate n a).getD i d = a := by
  simp [List.getD_eq_getElem?_getD, List.getElem?_replicate, h]

lemma getD_replicate_ge {α : Type} {n i : Nat} (h : n ≤ i) (a d : α) :
    (List.replicate n a).getD i d = d := by
  simp [List.getD_eq_getElem?_getD, List.getElem?_replicate, Nat.not_lt.mpr h]

lemma getD_mem {α : Type} (l : List α) {i : Nat} (h : i < l.length) (d : α) :
    l.getD i d ∈ l := by
  rw [List.getD_eq_getElem l d h]
  exact List.getElem_mem h

lemma getD_map_range {α : Type} (f : Nat → α) {n i : Nat} (h : i < n) (d : α) :
    ((List.range n).map f).getD i d = f i := by
  rw [List.getD_eq_getElem _ d (by simpa using h)]
  simp

lemma getD_map_range_ge {α : Type} (f : Nat → α) {n i : Nat} (h : n ≤ i) (d : α) :
    ((List.range n).map f).getD i d = d := by
  have hnone : ((List.range n).map f)[i]? = none := by
    apply List.getElem?_eq_none
    simpa using h
  simp [List.getD_eq_getElem?_getD, hnone]

lemma getD_lt_length {α : Type} [DecidableEq α] {l : List α} {i : Nat} {d : α}
    (h : l.getD i d ≠ d) : i < l.length := by
  by_contra hc
  exact h (by simp [List.getD_eq_getElem?_getD, List.getElem?_eq_none (Nat.not_lt.mp hc)])

lemma filter_eq_length_zero {l : List Int} {v : Int} :
    ((l.filter (fun x => x = v)).length = 0) ↔ ∀ x ∈ l, x ≠ v := by
  rw [List.length_eq_zero, List.filter_eq_nil_iff]
  simp

/-- The `jax.lax.switch` of `_state_to_timestep`, spelled out per branch. -/
lemma timestepSwitch_spec (h d : Bool) :
    (timestepSwitch h d = StepKind.termination ↔ d = true)
    ∧ (timestepSwitch h d = StepKind.truncation ↔ (d = false ∧ h = true))
    ∧ (timestepSwitch h d = StepKind.transition ↔ (d = false ∧ h = false)) := by
  cases h <;> cases d <;> simp [timestepSwitch]

/-- C5: after the per-step state update (including the step-counter
increment), the step returns a termination timestep iff all agents are
finished, regardless of the step limit; otherwise it returns a truncation
timestep iff step_count >= step_limit; otherwise it is a normal
transition. -/
theorem C5_done_truncated_transition (numAgents stepLimit numNodesPerAgent : Nat)
    (st : EnvState) (action : List Int) (perm : List Nat) :
    ((envStep numAgents stepLimit numNodesPerAgent st action perm).kind = StepKind.termination
      ↔ (envStep numAgents stepLimit numNodesPerAgent st action perm).state.finished_agents.all
          (fun b => b) = true)
    ∧ ((envStep numAgents stepLimit numNodesPerAgent st action perm).kind = StepKind.truncation
      ↔ ((envStep numAgents stepLimit numNodesPerAgent st action perm).state.finished_agents.all
            (fun b => b) = false
          ∧ stepLimit ≤ (envStep numAgents stepLimit numNodesPerAgent st action perm).state.step_count))
    ∧ ((envStep numAgents stepLimit numNodesPerAgent st action perm).kind = StepKind.transition
      ↔ ((envStep numAgents stepLimit numNodesPerAgent st action perm).state.finished_agents.all
            (fun b => b) = false
          ∧ (envStep numAgents stepLimit numNodesPerAgent st action perm).state.step_count < stepLimit)) := by
  have hk : (envStep numAgents stepLimit numNodesPerAgent st action perm).kind
      = timestepSwitch
          (decide (stepLimit ≤ (envStep numAgents stepLimit numNodesPerAgent st action perm).state.step_count))
          ((envStep numAgents stepLimit numNodesPerAgent st action perm).state.finished_agents.all
            (fun b => b)) := rfl
  rw [hk]
  rcases timestepSwitch_spec
      (decide (stepLimit ≤ (envStep numAgents stepLimit numNodesPerAgent st action perm).state.step_count))
      ((envStep numAgents stepLimit numNodesPerAgent st action perm).state.finished_agents.all
        (fun b => b)) with ⟨h1, h2, h3⟩
  refine ⟨h1, ?_, ?_⟩
  · rw [h2]
    simp [decide_eq_true_iff]
  · rw [h3]
    simp [Nat.not_le]

/- Characterization of the edge-visibility update. -/

lemma updEdgesEntry_eq (e node : Int) :
    updEdgesEntry e node = if e = node then -1 else e := by
  by_cases h : e = node <;> simp [updEdgesEntry, h]

lemma claimedInL_nil (pos nt : List Int) (k : Nat) (e : Int) :
    claimedInL [] pos nt k e = false := rfl

lemma foldSetTransform_length (g : List (List Int) → List (List Int)) (agent : Nat) :
    ∀ (L : List Nat) (active : List (List (List Int))),
    (L.foldl (fun a2 j => if agent ≠ j then a2.set j (g (a2.getD j [])) else a2)
        active).length = active.length := by
  intro L
  induction L with
  | nil => intro active; rfl
  | cons j L ih =>
    intro active
    rw [List.foldl_cons, ih]
    by_cases h : agent ≠ j <;> simp [h]

lemma foldSetTransform_getD (g : List (List Int) → List (List Int)) (agent : Nat) :
    ∀ (L : List Nat), L.Nodup → ∀ (active : List (List (List Int))) (k : Nat),
    (L.foldl (fun a2 j => if agent ≠ j then a2.set j (g (a2.getD j [])) else a2)
        active).getD k []
      = if k ∈ L ∧ agent ≠ k ∧ k < active.length then g (active.getD k [])
        else active.getD k [] := by
  intro L
  induction L with
  | nil =>
    intro _ active k
    simp
  | cons j L ih =>
    intro hnd active k
    rcases List.nodup_cons.mp hnd with ⟨hjL, hndL⟩
    rw [List.foldl_cons]
    by_cases hk : k = j
    · subst hk
      rw [ih hndL]
      have hkL : k ∉ L := hjL
      rw [if_neg (fun hc => hkL hc.1)]
      by_cases ha : agent ≠ k
      · rw [if_pos ha]
        by_cases hlen : k < active.length
        · rw [getD_set_self active hlen, if_pos ⟨List.mem_cons_self k L, ha, hlen⟩]
        · rw [List.set_eq_of_length_le (Nat.not_lt.mp hlen),
            if_neg (fun hc => hlen hc.2.2)]
      · rw [if_neg ha, if_neg (fun hc => ha hc.2.1)]
    · have hbody : ((if agent ≠ j then active.set j (g (active.getD j [])) else active)).getD k []
          = active.getD k [] := by
        by_cases ha : agent ≠ j
        · rw [if_pos ha, getD_set_ne active (fun he => hk he.symm)]
        · rw [if_neg ha]
      have hlen : ((if agent ≠ j then active.set j (g (active.getD j [])) else active)).length
          = active.length := by
        by_cases ha : agent ≠ j <;> simp [ha]
      rw [ih hndL, hbody, hlen]
      have hmem : k ∈ j :: L ↔ k ∈ L := by
        simp [List.mem_cons, hk]
      by_cases hc : k ∈ L ∧ agent ≠ k ∧ k < active.length
      · rw [if_pos hc, if_pos (by tauto)]
      · rw [if_neg hc, if_neg (by rw [hmem] at *; tauto)]

lemma updateActiveEdges_eq_outer (numAgents : Nat) (E : List (List (List Int)))
    (pos nt : List Int) :
    updateActiveEdges numAgents E pos nt
      = (List.range numAgents).foldl (outerBodyFn numAgents pos nt) E := rfl

lemma outerBodyFn_getD (numAgents : Nat) (pos nt : List Int) (agent k : Nat)
    (active : List (List (List Int))) :
    (outerBodyFn numAgents pos nt active agent).getD k []
      = if k < numAgents ∧ agent ≠ k ∧ k < active.length then
          (if jidx nt (pos.getD agent 0) = UTILITY_NODE then
            updateEdges (active.getD k []) (pos.getD agent 0)
           else active.getD k [])
        else active.getD k [] := by
  have h := foldSetTransform_getD
    (fun m => if jidx nt (pos.getD agent 0) = UTILITY_NODE then
      updateEdges m (pos.getD agent 0) else m)
    agent (List.range numAgents) (List.nodup_range numAgents) active k
  simpa [outerBodyFn, List.mem_range] using h

lemma outerBodyFn_length (numAgents : Nat) (pos nt : List Int) (agent : Nat)
    (active : List (List (List Int))) :
    (outerBodyFn numAgents pos nt active agent).length = active.length := by
  have h := foldSetTransform_length
    (fun m => if jidx nt (pos.getD agent 0) = UTILITY_NODE then
      updateEdges m (pos.getD agent 0) else m)
    agent (List.range numAgents) active
  simpa [outerBodyFn] using h

lemma outerFold_length (numAgents : Nat) (pos nt : List Int) :
    ∀ (M : List Nat) (active : List (List (List Int))),
    (M.foldl (outerBodyFn numAgents pos nt) active).length = active.length := by
  intro M
  induction M with
  | nil => intro active; rfl
  | cons j M ih =>
    intro active
    rw [List.foldl_cons, ih, outerBodyFn_length]

lemma outerFold_getD_lt (numAgents : Nat) (pos nt : List Int) (k : Nat)
    (hk : k < numAgents) :
    ∀ (M : List Nat) (active : List (List (List Int))), k < active.length →
    (M.foldl (outerBodyFn numAgents pos nt) active).getD k []
      = M.foldl
          (fun m j => if j ≠ k ∧ jidx nt (pos.getD j 0) = UTILITY_NODE then
            updateEdges m (pos.getD j 0) else m)
          (active.getD k []) := by
  intro M
  induction M with
  | nil => intro active _; rfl
  | cons j M ih =>
    intro active hlen
    rw [List.foldl_cons, List.foldl_cons,
      ih (outerBodyFn numAgents pos nt active j) (by rw [outerBodyFn_length]; exact hlen)]
    congr 1
    rw [outerBodyFn_getD]
    by_cases hjk : j ≠ k
    · rw [if_pos ⟨hk, hjk, hlen⟩]
      by_cases hc : jidx nt (pos.getD j 0) = UTILITY_NODE
      · rw [if_pos hc, if_pos ⟨hjk, hc⟩]
      · rw [if_neg hc, if_neg (fun hx => hc hx.2)]
    · rw [if_neg (fun hx => hjk hx.2.1), if_neg (fun hx => hjk hx.1)]

lemma outerFold_getD_ge (numAgents : Nat) (pos nt : List Int) (k : Nat)
    (hk : numAgents ≤ k) :
    ∀ (M : List Nat) (active : List (List (List Int))),
    (M.foldl (outerBodyFn numAgents pos nt) active).getD k [] = active.getD k [] := by
  intro M
  induction M with
  | nil => intro active; rfl
  | cons j M ih =>
    intro active
    rw [List.foldl_cons, ih, outerBodyFn_getD,
      if_neg (fun hx => Nat.not_lt.mpr hk hx.1)]

lemma slotFold_eq_map (pos nt : List Int) (k : Nat) :
    ∀ (M : List Nat) (m : List (List Int)),
    M.foldl
        (fun m j => if j ≠ k ∧ jidx nt (pos.getD j 0) = UTILITY_NODE then
          updateEdges m (pos.getD j 0) else m)
        m
      = m.map (fun row => row.map (fun e =>
          if claimedInL M pos nt k e then -1 else e)) := by
  intro M
  induction M with
  | nil =>
    intro m
    simp [claimedInL_nil]
  | cons j M ih =>
    intro m
    have hcons : ∀ e : Int, claimedInL (j :: M) pos nt k e
        = ((decide (j ≠ k) && decide (pos.getD j 0 = e)
            && decide (jidx nt (pos.getD j 0) = UTILITY_NODE))
          || claimedInL M pos nt k e) := by
      intro e
      rfl
    rw [List.foldl_cons]
    by_cases hc : j ≠ k ∧ jidx nt (pos.getD j 0) = UTILITY_NODE
    · have hfun : ∀ e : Int,
          (if claimedInL M pos nt k (updEdgesEntry e (pos.getD j 0)) then (-1 : Int)
            else updEdgesEntry e (pos.getD j 0))
          = if claimedInL (j :: M) pos nt k e then -1 else e := by
        intro e
        rw [updEdgesEntry_eq]
        by_cases he : e = pos.getD j 0
        · have hterm : (decide (j ≠ k) && decide (pos.getD j 0 = e)
              && decide (jidx nt (pos.getD j 0) = UTILITY_NODE)) = true := by
            rw [decide_eq_true hc.1, decide_eq_true he.symm, decide_eq_true hc.2]
            rfl
          rw [if_pos he, hcons e, hterm, ite_self, Bool.true_or, if_pos rfl]
        · have hterm : (decide (j ≠ k) && decide (pos.getD j 0 = e)
              && decide (jidx nt (pos.getD j 0) = UTILITY_NODE)) = false := by
            rw [decide_eq_false (fun h : pos.getD j 0 = e => he h.symm)]
            simp only [Bool.and_false, Bool.false_and]
          rw [if_neg he, hcons e, hterm, Bool.false_or]
      rw [if_pos hc, ih, updateEdges, List.map_map]
      refine List.map_congr_left (fun row _ => ?_)
      simp only [Function.comp_apply]
      rw [List.map_map]
      refine List.map_congr_left (fun e _ => ?_)
      simp only [Function.comp_apply]
      exact hfun e
    · have hterm : ∀ e : Int, (decide (j ≠ k) && decide (pos.getD j 0 = e)
          && decide (jidx nt (pos.getD j 0) = UTILITY_NODE)) = false := by
        intro e
        rcases Decidable.not_and_iff_or_not.mp hc with h1 | h2
        · rw [decide_eq_false h1]
          simp only [Bool.false_and]
        · rw [decide_eq_false h2]
          simp only [Bool.and_false]
      have hfun : ∀ e : Int,
          (if claimedInL M pos nt k e then (-1 : Int) else e)
          = if claimedInL (j :: M) pos nt k e then -1 else e := by
        intro e
        rw [hcons e, hterm e, Bool.false_or]
      rw [if_neg hc, ih]
      refine List.map_congr_left (fun row _ => ?_)
      refine List.map_congr_left (fun e _ => ?_)
      exact hfun e

lemma getD_ge {α : Type} {l : List α} {i : Nat} (h : l.length ≤ i) (d : α) :
    l.getD i d = d := by
  simp [List.getD_eq_getElem?_getD, List.getElem?_eq_none h]

lemma updateActiveEdges_length (numAgents : Nat) (E : List (List (List Int)))
    (pos nt : List Int) :
    (updateActiveEdges numAgents E pos nt).length = E.length := by
  rw [updateActiveEdges_eq_outer]
  exact outerFold_length numAgents pos nt (List.range numAgents) E

lemma updateActiveEdges_getD (numAgents : Nat) (E : List (List (List Int)))
    (pos nt : List Int) (k : Nat) (hk : k < numAgents) :
    (updateActiveEdges numAgents E pos nt).getD k []
      = (E.getD k []).map (fun row => row.map (fun e =>
          if claimedInL (List.range numAgents) pos nt k e then -1 else e)) := by
  rw [updateActiveEdges_eq_outer]
  by_cases hlen : k < E.length
  · rw [outerFold_getD_lt numAgents pos nt k hk (List.range numAgents) E hlen,
      slotFold_eq_map]
  · have h1 : ((List.range numAgents).foldl (outerBodyFn numAgents pos nt) E).getD k []
        = ([] : List (List Int)) := by
      apply getD_ge
      rw [outerFold_length]
      exact Nat.not_lt.mp hlen
    rw [h1, getD_ge (Nat.not_lt.mp hlen)]
    rfl

lemma updateActiveEdges_getD_ge (numAgents : Nat) (E : List (List (List Int)))
    (pos nt : List Int) (k : Nat) (hk : numAgents ≤ k) :
    (updateActiveEdges numAgents E pos nt).getD k [] = E.getD k [] := by
  rw [updateActiveEdges_eq_outer]
  exact outerFold_getD_ge numAgents pos nt k hk (List.range numAgents) E

lemma claimedPhi_idem (M : List Nat) (pos nt : List Int) (k : Nat) (e : Int) :
    (if claimedInL M pos nt k (if claimedInL M pos nt k e then (-1 : Int) else e)
      then (-1 : Int)
      else (if claimedInL M pos nt k e then (-1 : Int) else e))
    = if claimedInL M pos nt k e then (-1 : Int) else e := by
  by_cases h : claimedInL M pos nt k e = true
  · rw [if_pos h, ite_self]
  · rw [if_neg h, if_neg h]

/-- C9: the edge-visibility update is idempotent: applying
`_update_active_edges` twice with the same positions and node types gives
exactly the same per-agent edge arrays as applying it once. -/
theorem C9_update_active_edges_idempotent (numAgents : Nat)
    (E : List (List (List Int))) (pos nt : List Int) :
    updateActiveEdges numAgents (updateActiveEdges numAgents E pos nt) pos nt
      = updateActiveEdges numAgents E pos nt := by
  apply List.ext_getElem
  · rw [updateActiveEdges_length, updateActiveEdges_length]
  · intro n h1 h2
    rw [← List.getD_eq_getElem _ ([] : List (List Int)) h1,
      ← List.getD_eq_getElem _ ([] : List (List Int)) h2]
    by_cases hn : n < numAgents
    · rw [updateActiveEdges_getD numAgents (updateActiveEdges numAgents E pos nt)
        pos nt n hn, updateActiveEdges_getD numAgents E pos nt n hn, List.map_map]
      refine List.map_congr_left (fun row _ => ?_)
      simp only [Function.comp_apply]
      rw [List.map_map]
      refine List.map_congr_left (fun e _ => ?_)
      simp only [Function.comp_apply]
      exact claimedPhi_idem (List.range numAgents) pos nt n e
    · rw [updateActiveEdges_getD_ge numAgents (updateActiveEdges numAgents E pos nt)
        pos nt n (Nat.not_lt.mp hn)]

lemma getD_map_matrix (m : List (List Int)) (φ : Int → Int) (v : Nat) :
    ((m.map (fun row => row.map φ)).getD v []) = (m.getD v []).map φ := by
  by_cases hv : v < m.length
  · rw [List.getD_eq_getElem _ _ (by simpa using hv), List.getD_eq_getElem _ _ hv,
      List.getElem_map]
  · rw [getD_ge (by simpa using Nat.not_lt.mp hv), getD_ge (Nat.not_lt.mp hv)]
    rfl

lemma getD_map_fix (row : List Int) (φ : Int → Int) (hφ : φ (-1) = -1) (w : Nat) :
    (row.map φ).getD w (-1) = φ (row.getD w (-1)) := by
  by_cases hw : w < row.length
  · rw [List.getD_eq_getElem _ _ (by simpa using hw), List.getD_eq_getElem _ _ hw,
      List.getElem_map]
  · rw [getD_ge (by simpa using Nat.not_lt.mp hw), getD_ge (Nat.not_lt.mp hw), hφ]

lemma entryAt_update (numAgents : Nat) (E : List (List (List Int)))
    (pos nt : List Int) (i v w : Nat) (hi : i < numAgents) :
    entryAt (updateActiveEdges numAgents E pos nt) i v w
      = if claimedInL (List.range numAgents) pos nt i (entryAt E i v w) then -1
        else entryAt E i v w := by
  unfold entryAt
  rw [updateActiveEdges_getD numAgents E pos nt i hi, getD_map_matrix, getD_map_fix]
  by_cases h : claimedInL (List.range numAgents) pos nt i (-1) = true
  · rw [if_pos h]
  · rw [if_neg h]

lemma claimedInL_iff (L : List Nat) (pos nt : List Int) (k : Nat) (e : Int) :
    claimedInL L pos nt k e = true
      ↔ ∃ j ∈ L, j ≠ k ∧ pos.getD j 0 = e
          ∧ jidx nt (pos.getD j 0) = UTILITY_NODE := by
  simp [claimedInL, and_assoc]

/-- C6: after the edge-visibility update, for every agent `i` and every
other agent `j` standing on a utility node `u = pos[j]`, no entry of agent
`i`'s adjacency view equals `u` any more (the edge into `u` is removed for
every source node); an entry whose target is a non-utility node is never
changed by the update; and an entry that is the position of no other
agent is kept, so the agent occupying a utility node keeps its own edges
into it. -/
theorem C6_utility_edges_masked (numAgents : Nat) (E : List (List (List Int)))
    (pos nt : List Int) :
    (∀ i j, i < numAgents → j < numAgents → j ≠ i →
      0 ≤ pos.getD j 0 → jidx nt (pos.getD j 0) = UTILITY_NODE →
      ∀ v w, entryAt (updateActiveEdges numAgents E pos nt) i v w ≠ pos.getD j 0)
    ∧ (∀ i v w, i < numAgents →
        jidx nt (entryAt E i v w) ≠ UTILITY_NODE →
        entryAt (updateActiveEdges numAgents E pos nt) i v w = entryAt E i v w)
    ∧ (∀ i v w, i < numAgents →
        (∀ j, j < numAgents → j ≠ i → pos.getD j 0 ≠ entryAt E i v w) →
        entryAt (updateActiveEdges numAgents E pos nt) i v w = entryAt E i v w) := by
  refine ⟨?_, ?_, ?_⟩
  · intro i j hi hj hji hpos hutil v w
    rw [entryAt_update numAgents E pos nt i v w hi]
    by_cases h : claimedInL (List.range numAgents) pos nt i (entryAt E i v w) = true
    · rw [if_pos h]
      omega
    · rw [if_neg h]
      intro heq
      apply h
      rw [claimedInL_iff]
      exact ⟨j, List.mem_range.mpr hj, hji, heq.symm, hutil⟩
  · intro i v w hi hnu
    rw [entryAt_update numAgents E pos nt i v w hi]
    by_cases h : claimedInL (List.range numAgents) pos nt i (entryAt E i v w) = true
    · exfalso
      rcases (claimedInL_iff (List.range numAgents) pos nt i (entryAt E i v w)).mp h
        with ⟨j, _, _, hpe, hul⟩
      exact hnu (hpe ▸ hul)
    · rw [if_neg h]
  · intro i v w hi hfree
    rw [entryAt_update numAgents E pos nt i v w hi]
    by_cases h : claimedInL (List.range numAgents) pos nt i (entryAt E i v w) = true
    · exfalso
      rcases (claimedInL_iff (List.range numAgents) pos nt i (entryAt E i v w)).mp h
        with ⟨j, hjm, hjne, hpe, _⟩
      exact hfree j (List.mem_range.mp hjm) hjne hpe
    · rw [if_neg h]

/-- Witness for C6 at a concrete instance: two agents, agent 1 standing on
utility node 2; the edge entries equal to 2 disappear from agent 0's view,
an entry into the owned node 1 is untouched, and the occupier keeps its
own edge into node 2. -/
theorem C6_utility_edges_masked_witness :
    ((0 : Nat) < 2 ∧ (1 : Nat) < 2 ∧ (1 : Nat) ≠ 0
      ∧ (0 : Int) ≤ ([(0 : Int), 2].getD 1 0)
      ∧ jidx [0, 0, -1] ([(0 : Int), 2].getD 1 0) = UTILITY_NODE
      ∧ jidx [0, 0, -1] (entryAt [[[-1, 1, 2], [0, -1, 2], [-1, -1, -1]],
          [[-1, 1, 2], [0, -1, 2], [-1, -1, -1]]] 0 0 1) ≠ UTILITY_NODE
      ∧ (∀ j, j < 2 → j ≠ 1 → ([(0 : Int), 2].getD j 0)
          ≠ entryAt [[[-1, 1, 2], [0, -1, 2], [-1, -1, -1]],
              [[-1, 1, 2], [0, -1, 2], [-1, -1, -1]]] 1 1 2))
    ∧ entryAt (updateActiveEdges 2 [[[-1, 1, 2], [0, -1, 2], [-1, -1, -1]],
        [[-1, 1, 2], [0, -1, 2], [-1, -1, -1]]] [0, 2] [0, 0, -1]) 0 0 2
        ≠ ([(0 : Int), 2].getD 1 0)
    ∧ entryAt (updateActiveEdges 2 [[[-1, 1, 2], [0, -1, 2], [-1, -1, -1]],
        [[-1, 1, 2], [0, -1, 2], [-1, -1, -1]]] [0, 2] [0, 0, -1]) 0 0 1
        = entryAt [[[-1, 1, 2], [0, -1, 2], [-1, -1, -1]],
          [[-1, 1, 2], [0, -1, 2], [-1, -1, -1]]] 0 0 1
    ∧ entryAt (updateActiveEdges 2 [[[-1, 1, 2], [0, -1, 2], [-1, -1, -1]],
        [[-1, 1, 2], [0, -1, 2], [-1, -1, -1]]] [0, 2] [0, 0, -1]) 1 1 2
        = entryAt [[[-1, 1, 2], [0, -1, 2], [-1, -1, -1]],
          [[-1, 1, 2], [0, -1, 2], [-1, -1, -1]]] 1 1 2 :=
  ⟨⟨by decide, by decide, by decide, by decide, by decide, by decide, by decide⟩,
    (C6_utility_edges_masked 2 [[[-1, 1, 2], [0, -1, 2], [-1, -1, -1]],
        [[-1, 1, 2], [0, -1, 2], [-1, -1, -1]]] [0, 2] [0, 0, -1]).1
      0 1 (by decide) (by decide) (by decide) (by decide) (by decide) 0 2,
    (C6_utility_edges_masked 2 [[[-1, 1, 2], [0, -1, 2], [-1, -1, -1]],
        [[-1, 1, 2], [0, -1, 2], [-1, -1, -1]]] [0, 2] [0, 0, -1]).2.1
      0 0 1 (by decide) (by decide),
    (C6_utility_edges_masked 2 [[[-1, 1, 2], [0, -1, 2], [-1, -1, -1]],
        [[-1, 1, 2], [0, -1, 2], [-1, -1, -1]]] [0, 2] [0, 0, -1]).2.2
      1 1 2 (by decide) (by decide)⟩

/- The tie-break loop. -/

lemma tieBreakBody_eq (actions nodes : List Int) (st : List Int × List Int) (a : Nat) :
    tieBreakBody actions nodes st a
      = if nodes.getD a EMPTY_NODE = EMPTY_NODE then st
        else if (st.1.filter (fun x => x = nodes.getD a EMPTY_NODE)).length = 0 then
          (st.1.set a (nodes.getD a EMPTY_NODE),
            st.2.set a (actions.getD a INVALID_CHOICE))
        else (st.1.set a INVALID_TIE_BREAK, st.2.set a INVALID_TIE_BREAK) := by
  by_cases h1 : nodes.getD a EMPTY_NODE = EMPTY_NODE
  · simp only [List.getD_eq_getElem?_getD] at h1 ⊢
    simp only [tieBreakBody, List.getD_eq_getElem?_getD, h1, if_pos rfl]
    by_cases h3 : (List.filter (fun x => decide (x = EMPTY_NODE)) st.1).length = 0 <;>
      simp [h3]
  · by_cases h2 : (st.1.filter (fun x => x = nodes.getD a EMPTY_NODE)).length = 0 <;>
      simp only [List.getD_eq_getElem?_getD] at h1 h2 ⊢ <;>
      simp [tieBreakBody, h1, h2]

lemma int_nonneg_getD_lt {l : List Int} {b : Nat} (h : 0 ≤ l.getD b (-1)) :
    b < l.length := by
  apply getD_lt_length (d := (-1 : Int))
  intro he
  rw [he] at h
  omega

lemma tieBreakBody_inv (actions nodes : List Int) (st : List Int × List Int)
    (h : TieInv actions nodes st) (a : Nat) :
    TieInv actions nodes (tieBreakBody actions nodes st a) := by
  obtain ⟨hl1, hl2, hrec, hdist⟩ := h
  rw [tieBreakBody_eq]
  by_cases h1 : nodes.getD a EMPTY_NODE = EMPTY_NODE
  · rw [if_pos h1]
    exact ⟨hl1, hl2, hrec, hdist⟩
  · rw [if_neg h1]
    by_cases h2 : (st.1.filter (fun x => x = nodes.getD a EMPTY_NODE)).length = 0
    · rw [if_pos h2]
      have hns : ∀ x ∈ st.1, x ≠ nodes.getD a EMPTY_NODE :=
        filter_eq_length_zero.mp h2
      refine ⟨by simpa using hl1, by simpa using hl2, ?_, ?_⟩
      · intro b hb
        by_cases hba : b = a
        · subst hba
          by_cases hblen : b < st.2.length
          · rw [getD_set_self st.1 (by omega) _ _]
          · rw [List.set_eq_of_length_le (Nat.not_lt.mp hblen)] at hb
            exact absurd (int_nonneg_getD_lt hb) hblen
        · rw [getD_set_ne st.2 (fun he => hba he.symm)] at hb
          rw [getD_set_ne st.1 (fun he => hba he.symm)]
          exact hrec b hb
      · intro b c hbc hb hc
        by_cases hba : b = a
        · subst hba
          by_cases hca : c = b
          · exact absurd hca.symm hbc
          · rw [getD_set_ne st.2 (fun he => hca he.symm)] at hc
            have hclen : c < st.2.length := int_nonneg_getD_lt hc
            have hcmem : st.1.getD c DUMMY_NODE ∈ st.1 :=
              getD_mem st.1 (by omega) DUMMY_NODE
            have := hns (st.1.getD c DUMMY_NODE) hcmem
            rw [hrec c hc] at this
            exact fun he => this (he ▸ rfl)
        · by_cases hca : c = a
          · subst hca
            rw [getD_set_ne st.2 (fun he => hba he.symm)] at hb
            have hblen : b < st.2.length := int_nonneg_getD_lt hb
            have hbmem : st.1.getD b DUMMY_NODE ∈ st.1 :=
              getD_mem st.1 (by omega) DUMMY_NODE
            have := hns (st.1.getD b DUMMY_NODE) hbmem
            rw [hrec b hb] at this
            exact this
          · rw [getD_set_ne st.2 (fun he => hba he.symm)] at hb
            rw [getD_set_ne st.2 (fun he => hca he.symm)] at hc
            exact hdist b c hbc hb hc
    · rw [if_neg h2]
      refine ⟨by simpa using hl1, by simpa using hl2, ?_, ?_⟩
      · intro b hb
        by_cases hba : b = a
        · subst hba
          by_cases hblen : b < st.2.length
          · rw [getD_set_self st.2 hblen] at hb
            exfalso
            have : INVALID_TIE_BREAK = (-2 : Int) := rfl
            omega
          · rw [List.set_eq_of_length_le (Nat.not_lt.mp hblen)] at hb
            exact absurd (int_nonneg_getD_lt hb) hblen
        · rw [getD_set_ne st.2 (fun he => hba he.symm)] at hb
          rw [getD_set_ne st.1 (fun he => hba he.symm)]
          exact hrec b hb
      · intro b c hbc hb hc
        by_cases hba : b = a
        · subst hba
          by_cases hblen : b < st.2.length
          · rw [getD_set_self st.2 hblen] at hb
            exfalso
            have : INVALID_TIE_BREAK = (-2 : Int) := rfl
            omega
          · rw [List.set_eq_of_length_le (Nat.not_lt.mp hblen)] at hb
            exact absurd (int_nonneg_getD_lt hb) hblen
        · by_cases hca : c = a
          · subst hca
            by_cases hclen : c < st.2.length
            · rw [getD_set_self st.2 hclen] at hc
              exfalso
              have : INVALID_TIE_BREAK = (-2 : Int) := rfl
              omega
            · rw [List.set_eq_of_length_le (Nat.not_lt.mp hclen)] at hc
              exact absurd (int_nonneg_getD_lt hc) hclen
          · rw [getD_set_ne st.2 (fun he => hba he.symm)] at hb
            rw [getD_set_ne st.2 (fun he => hca he.symm)] at hc
            exact hdist b c hbc hb hc

lemma tieBreakFold_inv (actions nodes : List Int) :
    ∀ (P : List Nat) (st : List Int × List Int), TieInv actions nodes st →
    TieInv actions nodes (P.foldl (tieBreakBody actions nodes) st) := by
  intro P
  induction P with
  | nil => intro st h; exact h
  | cons a P ih =>
    intro st h
    rw [List.foldl_cons]
    exact ih _ (tieBreakBody_inv actions nodes st h a)

lemma replicate_invalid_getD (n b : Nat) :
    (List.replicate n INVALID_CHOICE).getD b (-1) = -1 := by
  by_cases hb : b < n
  · rw [getD_replicate_lt hb]
    rfl
  · rw [getD_replicate_ge (Nat.not_lt.mp hb)]

lemma tieBreakLoop_inv (numAgents : Nat) (perm : List Nat) (actions nodes : List Int)
    (hA : numAgents = actions.length) :
    TieInv actions nodes (tieBreakLoop numAgents perm actions nodes) := by
  apply tieBreakFold_inv
  refine ⟨by simp [hA], by simp, ?_, ?_⟩
  · intro b hb
    rw [replicate_invalid_getD] at hb
    omega
  · intro b c _ hb _
    rw [replicate_invalid_getD] at hb
    omega

/- Projections of the trim function. -/

lemma trim_snd (numAgents : Nat) (st : EnvState) (actions : List Int) (perm : List Nat) :
    (trimDuplicatedInvalidActions numAgents st actions perm).2
      = resolveNodes numAgents st.node_edges st.positions actions := rfl

lemma trim_fst (numAgents : Nat) (st : EnvState) (actions : List Int) (perm : List Nat) :
    (trimDuplicatedInvalidActions numAgents st actions perm).1
      = (List.range numAgents).map (fun agent =>
          ((List.range numAgents).map (fun agent2 =>
            maskVisitedNodes
              (jidx (st.connected_nodes_index.getD agent2 [])
                ((resolveNodes numAgents st.node_edges st.positions actions).getD agent2
                  EMPTY_NODE))
              ((tieBreakLoop numAgents perm actions
                  (resolveNodes numAgents st.node_edges st.positions actions)).2.getD agent2
                INVALID_CHOICE))).getD agent INVALID_CHOICE
          * (if st.finished_agents.getD agent false then 0 else 1)
          - (if st.finished_agents.getD agent false then 1 else 0)) := rfl

lemma trim_fst_getD (numAgents : Nat) (st : EnvState) (actions : List Int)
    (perm : List Nat) (i : Nat) (hi : i < numAgents) (d : Int) :
    (trimDuplicatedInvalidActions numAgents st actions perm).1.getD i d
      = maskVisitedNodes
          (jidx (st.connected_nodes_index.getD i [])
            ((resolveNodes numAgents st.node_edges st.positions actions).getD i EMPTY_NODE))
          ((tieBreakLoop numAgents perm actions
              (resolveNodes numAgents st.node_edges st.positions actions)).2.getD i
            INVALID_CHOICE)
        * (if st.finished_agents.getD i false then 0 else 1)
        - (if st.finished_agents.getD i false then 1 else 0) := by
  rw [trim_fst, getD_map_range _ hi, getD_map_range _ hi]

lemma trim_fst_length (numAgents : Nat) (st : EnvState) (actions : List Int)
    (perm : List Nat) :
    (trimDuplicatedInvalidActions numAgents st actions perm).1.length = numAgents := by
  rw [trim_fst]
  simp

/-- An agent with a non-negative final action code is in range, is not
finished, passed the visited-node mask and carries a non-negative
tie-break-loop mark. -/
lemma trim_accepted (numAgents : Nat) (st : EnvState) (actions : List Int)
    (perm : List Nat) (i : Nat)
    (h : 0 ≤ (trimDuplicatedInvalidActions numAgents st actions perm).1.getD i
        INVALID_CHOICE) :
    i < numAgents
    ∧ 0 ≤ (tieBreakLoop numAgents perm actions
        (resolveNodes numAgents st.node_edges st.positions actions)).2.getD i (-1) := by
  have hi : i < numAgents := by
    by_contra hc
    have hlen : (trimDuplicatedInvalidActions numAgents st actions perm).1.length ≤ i := by
      rw [trim_fst_length]
      exact Nat.not_lt.mp hc
    rw [getD_ge hlen] at h
    have : INVALID_CHOICE = (-1 : Int) := rfl
    omega
  rw [trim_fst_getD numAgents st actions perm i hi] at h
  by_cases hfin : st.finished_agents.getD i false = true
  · rw [if_pos hfin, if_pos hfin] at h
    simp only [mul_zero, zero_sub] at h
    omega
  · rw [if_neg hfin, if_neg hfin] at h
    simp only [mul_one, sub_zero] at h
    unfold maskVisitedNodes at h
    by_cases hv : jidx (st.connected_nodes_index.getD i [])
        ((resolveNodes numAgents st.node_edges st.positions actions).getD i EMPTY_NODE)
        ≠ EMPTY_NODE
    · rw [if_pos hv] at h
      exfalso
      have : INVALID_ALREADY_TRAVERSED = (-3 : Int) := rfl
      omega
    · rw [if_neg hv] at h
      exact ⟨hi, h⟩

/-- C1: in any step, two distinct agents whose final action codes are both
non-negative (ACCEPTED) have distinct resolved destination nodes: no two
agents are granted the same node in the same step. -/
theorem C1_no_double_grant (numAgents : Nat) (st : EnvState) (actions : List Int)
    (perm : List Nat) (i j : Nat) (hA : numAgents = actions.length) (hij : i ≠ j)
    (hi : 0 ≤ (trimDuplicatedInvalidActions numAgents st actions perm).1.getD i
        INVALID_CHOICE)
    (hj : 0 ≤ (trimDuplicatedInvalidActions numAgents st actions perm).1.getD j
        INVALID_CHOICE) :
    (trimDuplicatedInvalidActions numAgents st actions perm).2.getD i INVALID_NODE
      ≠ (trimDuplicatedInvalidActions numAgents st actions perm).2.getD j INVALID_NODE := by
  obtain ⟨hiA, hacts_i⟩ := trim_accepted numAgents st actions perm i hi
  obtain ⟨hjA, hacts_j⟩ := trim_accepted numAgents st actions perm j hj
  have hinv := tieBreakLoop_inv numAgents perm actions
    (resolveNodes numAgents st.node_edges st.positions actions) hA
  have hd := hinv.2.2.2 i j hij hacts_i hacts_j
  rw [trim_snd]
  exact hd

/-- Witness for C1: two agents at nodes 0 and 1 accept the distinct nodes
1 and 2. -/
theorem C1_no_double_grant_witness :
    ((2 : Nat) = [(1 : Int), 2].length ∧ (0 : Nat) ≠ 1
      ∧ 0 ≤ (trimDuplicatedInvalidActions 2 c1WitnessState [1, 2] [0, 1]).1.getD 0
          INVALID_CHOICE
      ∧ 0 ≤ (trimDuplicatedInvalidActions 2 c1WitnessState [1, 2] [0, 1]).1.getD 1
          INVALID_CHOICE)
    ∧ (trimDuplicatedInvalidActions 2 c1WitnessState [1, 2] [0, 1]).2.getD 0 INVALID_NODE
      ≠ (trimDuplicatedInvalidActions 2 c1WitnessState [1, 2] [0, 1]).2.getD 1
          INVALID_NODE :=
  ⟨⟨by decide, by decide, by decide, by decide⟩,
    C1_no_double_grant 2 c1WitnessState [1, 2] [0, 1] 0 1 (by decide) (by decide)
      (by decide) (by decide)⟩

/- Refinement of the tie-break loop to the spec algorithm. -/

lemma getD_default_irrel {α : Type} (l : List α) {i : Nat} (h : i < l.length)
    (d1 d2 : α) : l.getD i d1 = l.getD i d2 := by
  rw [List.getD_eq_getElem _ _ h, List.getD_eq_getElem _ _ h]

lemma mem_set_iff {l : List Int} {a : Nat} {w v : Int} (ha : a < l.length)
    (hne : l.getD a 0 ≠ v) : v ∈ l.set a w ↔ v = w ∨ v ∈ l := by
  induction l generalizing a with
  | nil => simp at ha
  | cons x xs ih =>
    cases a with
    | zero =>
      have hx : x ≠ v := by simpa using hne
      simp only [List.set, List.mem_cons]
      constructor
      · rintro (h | h)
        · exact Or.inl h
        · exact Or.inr (Or.inr h)
      · rintro (h | h | h)
        · exact Or.inl h
        · exact absurd h.symm hx
        · exact Or.inr h
    | succ a =>
      have ha1 : a < xs.length := by simpa using ha
      have hne1 : xs.getD a 0 ≠ v := by simpa using hne
      simp only [List.set, List.mem_cons]
      rw [ih ha1 hne1]
      tauto

lemma specTieBreakGo_cons (actions nodes : List Int) (a : Nat) (rest : List Nat)
    (granted marks : List Int) :
    specTieBreakGo actions nodes (a :: rest) granted marks
      = if nodes.getD a EMPTY_NODE = EMPTY_NODE then
          specTieBreakGo actions nodes rest granted marks
        else if nodes.getD a EMPTY_NODE ∈ granted then
          specTieBreakGo actions nodes rest granted (marks.set a INVALID_TIE_BREAK)
        else
          specTieBreakGo actions nodes rest (granted ++ [nodes.getD a EMPTY_NODE])
            (marks.set a (actions.getD a INVALID_CHOICE)) := rfl

lemma tieBreak_refines (actions nodes : List Int)
    (hnodes : ∀ e ∈ nodes, e = EMPTY_NODE ∨ 0 ≤ e) :
    ∀ (P : List Nat), P.Nodup → (∀ a ∈ P, a < actions.length) →
    ∀ (added acts granted : List Int),
    added.length = actions.length →
    (∀ v : Int, 0 ≤ v → ((v ∈ added) ↔ v ∈ granted)) →
    (∀ b ∈ P, added.getD b DUMMY_NODE = DUMMY_NODE) →
    (P.foldl (tieBreakBody actions nodes) (added, acts)).2
      = specTieBreakGo actions nodes P granted acts := by
  intro P
  induction P with
  | nil => intro _ _ added acts granted _ _ _; rfl
  | cons a P ih =>
    intro hnd hlt added acts granted hlen hmemb hunproc
    rcases List.nodup_cons.mp hnd with ⟨haP, hndP⟩
    have haA : a < actions.length := hlt a (List.mem_cons_self a P)
    have haAdded : a < added.length := by omega
    have hslot : added.getD a DUMMY_NODE = DUMMY_NODE :=
      hunproc a (List.mem_cons_self a P)
    have hslot0 : added.getD a 0 = DUMMY_NODE := by
      rw [getD_default_irrel added haAdded 0 DUMMY_NODE]
      exact hslot
    rw [List.foldl_cons, tieBreakBody_eq, specTieBreakGo_cons]
    by_cases h1 : nodes.getD a EMPTY_NODE = EMPTY_NODE
    · rw [if_pos h1, if_pos h1]
      exact ih hndP (fun b hb => hlt b (List.mem_cons_of_mem a hb))
        added acts granted hlen hmemb
        (fun b hb => hunproc b (List.mem_cons_of_mem a hb))
    · have hdest0 : 0 ≤ nodes.getD a EMPTY_NODE := by
        have hmem : nodes.getD a EMPTY_NODE ∈ nodes := by
          apply getD_mem
          by_contra hc
          exact h1 (getD_ge (Nat.not_lt.mp hc) EMPTY_NODE)
        rcases hnodes _ hmem with h | h
        · exact absurd h h1
        · exact h
      have hiff : ((added.filter (fun x => x = nodes.getD a EMPTY_NODE)).length = 0)
          ↔ nodes.getD a EMPTY_NODE ∉ granted := by
        rw [filter_eq_length_zero]
        constructor
        · intro hall hg
          exact hall _ ((hmemb _ hdest0).mpr hg) rfl
        · intro hng x hx hxe
          exact hng ((hmemb _ hdest0).mp (hxe ▸ hx))
      rw [if_neg h1, if_neg h1]
      by_cases h2 : nodes.getD a EMPTY_NODE ∈ granted
      · rw [if_neg (fun hc => (hiff.mp hc) h2), if_pos h2]
        apply ih hndP (fun b hb => hlt b (List.mem_cons_of_mem a hb))
        · simpa using hlen
        · intro v hv
          have hDne : added.getD a 0 ≠ v := by
            rw [hslot0]
            have : DUMMY_NODE = (-10 : Int) := rfl
            omega
          rw [mem_set_iff haAdded hDne]
          have hv2 : ¬v = INVALID_TIE_BREAK := by
            have : INVALID_TIE_BREAK = (-2 : Int) := rfl
            omega
          rw [hmemb v hv]
          tauto
        · intro b hb
          rw [getD_set_ne added (fun he => haP (by rw [he]; exact hb))]
          exact hunproc b (List.mem_cons_of_mem a hb)
      · rw [if_pos (hiff.mpr h2), if_neg h2]
        apply ih hndP (fun b hb => hlt b (List.mem_cons_of_mem a hb))
        · simpa using hlen
        · intro v hv
          have hDne : added.getD a 0 ≠ v := by
            rw [hslot0]
            have : DUMMY_NODE = (-10 : Int) := rfl
            omega
          rw [mem_set_iff haAdded hDne, hmemb v hv, List.mem_append,
            List.mem_singleton]
          tauto
        · intro b hb
          rw [getD_set_ne added (fun he => haP (by rw [he]; exact hb))]
          exact hunproc b (List.mem_cons_of_mem a hb)

/-- C2: the source tie-break loop computes exactly the spec algorithm:
one shared permutation is processed in order while a set of granted nodes
is maintained; an agent whose resolved destination is not yet granted is
granted it (ACCEPTED, its requested action index is kept), and an agent
whose resolved destination was claimed by an earlier agent of the
permutation is marked INVALID_TIE_BREAK. -/
theorem C2_tie_break_refines_spec (numAgents : Nat) (st : EnvState)
    (actions : List Int) (perm : List Nat) (hA : numAgents = actions.length)
    (hnd : perm.Nodup) (hlt : ∀ a ∈ perm, a < actions.length)
    (hnodes : ∀ e ∈ resolveNodes numAgents st.node_edges st.positions actions,
      e = EMPTY_NODE ∨ 0 ≤ e) :
    (tieBreakLoop numAgents perm actions
        (resolveNodes numAgents st.node_edges st.positions actions)).2
      = specTieBreak perm actions
          (resolveNodes numAgents st.node_edges st.positions actions) := by
  unfold tieBreakLoop specTieBreak
  apply tieBreak_refines _ _ hnodes perm hnd hlt
  · simp [hA]
  · intro v hv
    have hvD : ¬v = DUMMY_NODE := by
      have : DUMMY_NODE = (-10 : Int) := rfl
      omega
    constructor
    · intro hmem
      exact absurd (List.eq_of_mem_replicate hmem) hvD
    · intro hmem
      simp at hmem
  · intro b _
    by_cases hb : b < numAgents
    · rw [getD_replicate_lt hb]
    · rw [getD_replicate_ge (Nat.not_lt.mp hb)]

/-- Witness for C2: two agents contest node 1 under the permutation
[1, 0]; the loop output equals the spec algorithm output. -/
theorem C2_tie_break_refines_spec_witness :
    ((2 : Nat) = [(1 : Int), 1].length ∧ [1, 0].Nodup
      ∧ (∀ a ∈ [1, 0], a < [(1 : Int), 1].length)
      ∧ (∀ e ∈ resolveNodes 2 c2WitnessState.node_edges c2WitnessState.positions [1, 1],
          e = EMPTY_NODE ∨ 0 ≤ e))
    ∧ (tieBreakLoop 2 [1, 0] [1, 1]
        (resolveNodes 2 c2WitnessState.node_edges c2WitnessState.positions [1, 1])).2
      = specTieBreak [1, 0] [1, 1]
          (resolveNodes 2 c2WitnessState.node_edges c2WitnessState.positions [1, 1]) :=
  ⟨⟨by decide, by decide, by decide, by decide⟩,
    C2_tie_break_refines_spec 2 c2WitnessState [1, 1] [1, 0] (by decide) (by decide)
      (by decide) (by decide)⟩

/- Projections of the env step. -/

lemma envStep_actions (numAgents stepLimit K : Nat) (st : EnvState)
    (action : List Int) (perm : List Nat) :
    (envStep numAgents stepLimit K st action perm).actions
      = (trimDuplicatedInvalidActions numAgents st action perm).1 := rfl

lemma envStep_step_count (numAgents stepLimit K : Nat) (st : EnvState)
    (action : List Int) (perm : List Nat) :
    (envStep numAgents stepLimit K st action perm).state.step_count
      = st.step_count + 1 := rfl

lemma envStep_upd (numAgents stepLimit K : Nat) (st : EnvState)
    (action : List Int) (perm : List Nat) :
    ((envStep numAgents stepLimit K st action perm).state.connected_nodes
        = ((List.range numAgents).map (fun agent =>
            stepAgentFn st (st.connected_nodes.getD agent [])
              (st.connected_nodes_index.getD agent [])
              ((trimDuplicatedInvalidActions numAgents st action perm).1.getD agent
                INVALID_CHOICE)
              ((trimDuplicatedInvalidActions numAgents st action perm).2.getD agent
                INVALID_NODE)
              (st.position_index.getD agent 0) agent)).map (fun r => r.1))
    ∧ ((envStep numAgents stepLimit K st action perm).state.connected_nodes_index
        = ((List.range numAgents).map (fun agent =>
            stepAgentFn st (st.connected_nodes.getD agent [])
              (st.connected_nodes_index.getD agent [])
              ((trimDuplicatedInvalidActions numAgents st action perm).1.getD agent
                INVALID_CHOICE)
              ((trimDuplicatedInvalidActions numAgents st action perm).2.getD agent
                INVALID_NODE)
              (st.position_index.getD agent 0) agent)).map (fun r => r.2.1))
    ∧ ((envStep numAgents stepLimit K st action perm).state.positions
        = ((List.range numAgents).map (fun agent =>
            stepAgentFn st (st.connected_nodes.getD agent [])
              (st.connected_nodes_index.getD agent [])
              ((trimDuplicatedInvalidActions numAgents st action perm).1.getD agent
                INVALID_CHOICE)
              ((trimDuplicatedInvalidActions numAgents st action perm).2.getD agent
                INVALID_NODE)
              (st.position_index.getD agent 0) agent)).map (fun r => r.2.2.1))
    ∧ ((envStep numAgents stepLimit K st action perm).state.position_index
        = ((List.range numAgents).map (fun agent =>
            stepAgentFn st (st.connected_nodes.getD agent [])
              (st.connected_nodes_index.getD agent [])
              ((trimDuplicatedInvalidActions numAgents st action perm).1.getD agent
                INVALID_CHOICE)
              ((trimDuplicatedInvalidActions numAgents st action perm).2.getD agent
                INVALID_NODE)
              (st.position_index.getD agent 0) agent)).map (fun r => r.2.2.2)) :=
  ⟨rfl, rfl, rfl, rfl⟩

lemma envStep_cn_getD (numAgents stepLimit K : Nat) (st : EnvState)
    (action : List Int) (perm : List Nat) (i : Nat) (hi : i < numAgents) :
    (envStep numAgents stepLimit K st action perm).state.connected_nodes.getD i []
      = (stepAgentFn st (st.connected_nodes.getD i [])
          (st.connected_nodes_index.getD i [])
          ((trimDuplicatedInvalidActions numAgents st action perm).1.getD i
            INVALID_CHOICE)
          ((trimDuplicatedInvalidActions numAgents st action perm).2.getD i INVALID_NODE)
          (st.position_index.getD i 0) i).1 := by
  rw [(envStep_upd numAgents stepLimit K st action perm).1, List.map_map,
    getD_map_range _ hi]
  rfl

lemma envStep_cni_getD (numAgents stepLimit K : Nat) (st : EnvState)
    (action : List Int) (perm : List Nat) (i : Nat) (hi : i < numAgents) :
    (envStep numAgents stepLimit K st action perm).state.connected_nodes_index.getD i []
      = (stepAgentFn st (st.connected_nodes.getD i [])
          (st.connected_nodes_index.getD i [])
          ((trimDuplicatedInvalidActions numAgents st action perm).1.getD i
            INVALID_CHOICE)
          ((trimDuplicatedInvalidActions numAgents st action perm).2.getD i INVALID_NODE)
          (st.position_index.getD i 0) i).2.1 := by
  rw [(envStep_upd numAgents stepLimit K st action perm).2.1, List.map_map,
    getD_map_range _ hi]
  rfl

lemma envStep_pos_getD (numAgents stepLimit K : Nat) (st : EnvState)
    (action : List Int) (perm : List Nat) (i : Nat) (hi : i < numAgents) :
    (envStep numAgents stepLimit K st action perm).state.positions.getD i 0
      = (stepAgentFn st (st.connected_nodes.getD i [])
          (st.connected_nodes_index.getD i [])
          ((trimDuplicatedInvalidActions numAgents st action perm).1.getD i
            INVALID_CHOICE)
          ((trimDuplicatedInvalidActions numAgents st action perm).2.getD i INVALID_NODE)
          (st.position_index.getD i 0) i).2.2.1 := by
  rw [(envStep_upd numAgents stepLimit K st action perm).2.2.1, List.map_map,
    getD_map_range _ hi]
  rfl

lemma envStep_pidx_getD (numAgents stepLimit K : Nat) (st : EnvState)
    (action : List Int) (perm : List Nat) (i : Nat) (hi : i < numAgents) :
    (envStep numAgents stepLimit K st action perm).state.position_index.getD i 0
      = (stepAgentFn st (st.connected_nodes.getD i [])
          (st.connected_nodes_index.getD i [])
          ((trimDuplicatedInvalidActions numAgents st action perm).1.getD i
            INVALID_CHOICE)
          ((trimDuplicatedInvalidActions numAgents st action perm).2.getD i INVALID_NODE)
          (st.position_index.getD i 0) i).2.2.2 := by
  rw [(envStep_upd numAgents stepLimit K st action perm).2.2.2, List.map_map,
    getD_map_range _ hi]
  rfl

lemma stepAgentFn_noop (st : EnvState) (cn ci : List Int) (a node : Int)
    (idx : Nat) (i : Nat) (ha : a = INVALID_CHOICE ∨ a = INVALID_TIE_BREAK) :
    stepAgentFn st cn ci a node idx i = (cn, ci, st.positions.getD i 0, idx) := by
  unfold stepAgentFn
  rcases ha with h | h
  · rw [if_neg (fun hc => hc.1.1 h)]
  · rw [if_neg (fun hc => hc.1.2 h)]

/-- A finished agent's final action code after the trim is always
INVALID_CHOICE. -/
lemma trim_finished_action (numAgents : Nat) (st : EnvState) (actions : List Int)
    (perm : List Nat) (i : Nat) (hi : i < numAgents)
    (hfin : st.finished_agents.getD i false = true) :
    (trimDuplicatedInvalidActions numAgents st actions perm).1.getD i INVALID_CHOICE
      = INVALID_CHOICE := by
  rw [trim_fst_getD numAgents st actions perm i hi, if_pos hfin, if_pos hfin]
  simp only [mul_zero, zero_sub]
  rfl

/-- C4 (amended): a finished agent is resolved to the no-op action code:
its final action is INVALID_CHOICE and its position, connected_nodes,
connected_nodes_index and position index are unchanged by the step. -/
theorem C4_finished_agent_noop (numAgents stepLimit K : Nat) (st : EnvState)
    (action : List Int) (perm : List Nat) (i : Nat) (hi : i < numAgents)
    (hfin : st.finished_agents.getD i false = true) :
    (envStep numAgents stepLimit K st action perm).actions.getD i INVALID_CHOICE
        = INVALID_CHOICE
    ∧ (envStep numAgents stepLimit K st action perm).state.positions.getD i 0
        = st.positions.getD i 0
    ∧ (envStep numAgents stepLimit K st action perm).state.connected_nodes.getD i []
        = st.connected_nodes.getD i []
    ∧ (envStep numAgents stepLimit K st action perm).state.connected_nodes_index.getD i []
        = st.connected_nodes_index.getD i []
    ∧ (envStep numAgents stepLimit K st action perm).state.position_index.getD i 0
        = st.position_index.getD i 0 := by
  have hact := trim_finished_action numAgents st action perm i hi hfin
  have hstep := stepAgentFn_noop st (st.connected_nodes.getD i [])
    (st.connected_nodes_index.getD i [])
    ((trimDuplicatedInvalidActions numAgents st action perm).1.getD i INVALID_CHOICE)
    ((trimDuplicatedInvalidActions numAgents st action perm).2.getD i INVALID_NODE)
    (st.position_index.getD i 0) i (Or.inl hact)
  refine ⟨?_, ?_, ?_, ?_, ?_⟩
  · rw [envStep_actions]
    exact hact
  · rw [envStep_pos_getD numAgents stepLimit K st action perm i hi, hstep]
  · rw [envStep_cn_getD numAgents stepLimit K st action perm i hi, hstep]
  · rw [envStep_cni_getD numAgents stepLimit K st action perm i hi, hstep]
  · rw [envStep_pidx_getD numAgents stepLimit K st action perm i hi, hstep]

/-- Witness for C4: the finished agent 0 of c4State keeps action code
INVALID_CHOICE and is frozen. -/
theorem C4_finished_agent_noop_witness :
    ((0 : Nat) < 2 ∧ c4State.finished_agents.getD 0 false = true)
    ∧ ((envStep 2 4 1 c4State [1, 1] [0, 1]).actions.getD 0 INVALID_CHOICE
        = INVALID_CHOICE
      ∧ (envStep 2 4 1 c4State [1, 1] [0, 1]).state.positions.getD 0 0
        = c4State.positions.getD 0 0
      ∧ (envStep 2 4 1 c4State [1, 1] [0, 1]).state.connected_nodes.getD 0 []
        = c4State.connected_nodes.getD 0 []
      ∧ (envStep 2 4 1 c4State [1, 1] [0, 1]).state.connected_nodes_index.getD 0 []
        = c4State.connected_nodes_index.getD 0 []
      ∧ (envStep 2 4 1 c4State [1, 1] [0, 1]).state.position_index.getD 0 0
        = c4State.position_index.getD 0 0) :=
  ⟨⟨by decide, by decide⟩,
    C4_finished_agent_noop 2 4 1 c4State [1, 1] [0, 1] 0 (by decide) (by decide)⟩

/-- Counterexample for C4 as stated: agent 0 is finished, both agents
resolve to node 1, and the unfinished agent 1 still receives
INVALID_TIE_BREAK because the finished agent claimed the node first in
the permutation order. -/
theorem C4_finished_agent_counterexample :
    c4State.finished_agents = [true, false]
    ∧ resolveNodes 2 c4State.node_edges c4State.positions [1, 1] = [1, 1]
    ∧ (envStep 2 4 1 c4State [1, 1] [0, 1]).actions = [-1, -2] := by
  decide

/-- C3 (amended): an unfinished agent whose requested action resolves in
its own adjacency view to a node already present in its
connected_nodes_index gets the final action code
INVALID_ALREADY_TRAVERSED, but it does move: its new position is the
resolved node, which is written again into connected_nodes at the next
buffer slot, and its position index advances. -/
theorem C3_already_traversed_moves (numAgents stepLimit K : Nat) (st : EnvState)
    (action : List Int) (perm : List Nat) (i : Nat) (hi : i < numAgents)
    (hres : 0 ≤ (trimDuplicatedInvalidActions numAgents st action perm).2.getD i
        INVALID_NODE)
    (hvis : jidx (st.connected_nodes_index.getD i [])
        ((trimDuplicatedInvalidActions numAgents st action perm).2.getD i INVALID_NODE)
        ≠ EMPTY_NODE)
    (hfin : st.finished_agents.getD i false = false) :
    (envStep numAgents stepLimit K st action perm).actions.getD i INVALID_CHOICE
        = INVALID_ALREADY_TRAVERSED
    ∧ (envStep numAgents stepLimit K st action perm).state.positions.getD i 0
        = (trimDuplicatedInvalidActions numAgents st action perm).2.getD i INVALID_NODE
    ∧ (envStep numAgents stepLimit K st action perm).state.connected_nodes.getD i []
        = (st.connected_nodes.getD i []).set (st.position_index.getD i 0 + 1)
            ((trimDuplicatedInvalidActions numAgents st action perm).2.getD i
              INVALID_NODE)
    ∧ (envStep numAgents stepLimit K st action perm).state.position_index.getD i 0
        = st.position_index.getD i 0 + 1 := by
  have hfin1 : ¬(st.finished_agents.getD i false = true) := by
    rw [hfin]
    exact Bool.false_ne_true
  rw [trim_snd] at hres hvis
  have hact : (trimDuplicatedInvalidActions numAgents st action perm).1.getD i
      INVALID_CHOICE = INVALID_ALREADY_TRAVERSED := by
    rw [trim_fst_getD numAgents st action perm i hi, if_neg hfin1, if_neg hfin1]
    simp only [mul_one, sub_zero]
    unfold maskVisitedNodes
    have hvis2 : jidx (st.connected_nodes_index.getD i [])
        ((resolveNodes numAgents st.node_edges st.positions action).getD i EMPTY_NODE)
        ≠ EMPTY_NODE := hvis
    rw [if_pos hvis2]
  have hnode1 : (trimDuplicatedInvalidActions numAgents st action perm).2.getD i
      INVALID_NODE ≠ INVALID_NODE := by
    rw [trim_snd]
    intro he
    rw [he] at hres
    have : INVALID_NODE = (-1 : Int) := rfl
    omega
  have hstep : stepAgentFn st (st.connected_nodes.getD i [])
      (st.connected_nodes_index.getD i [])
      ((trimDuplicatedInvalidActions numAgents st action perm).1.getD i INVALID_CHOICE)
      ((trimDuplicatedInvalidActions numAgents st action perm).2.getD i INVALID_NODE)
      (st.position_index.getD i 0) i
      = ((st.connected_nodes.getD i []).set (st.position_index.getD i 0 + 1)
            ((trimDuplicatedInvalidActions numAgents st action perm).2.getD i
              INVALID_NODE),
          jset (st.connected_nodes_index.getD i [])
            ((trimDuplicatedInvalidActions numAgents st action perm).2.getD i
              INVALID_NODE)
            ((trimDuplicatedInvalidActions numAgents st action perm).2.getD i
              INVALID_NODE),
          (trimDuplicatedInvalidActions numAgents st action perm).2.getD i INVALID_NODE,
          st.position_index.getD i 0 + 1) := by
    rw [hact]
    unfold stepAgentFn updateConnectedNodes
    rw [if_pos ⟨⟨by decide, by decide⟩, hnode1⟩]
  refine ⟨?_, ?_, ?_, ?_⟩
  · rw [envStep_actions]
    exact hact
  · rw [envStep_pos_getD numAgents stepLimit K st action perm i hi, hstep]
  · rw [envStep_cn_getD numAgents stepLimit K st action perm i hi, hstep]
  · rw [envStep_pidx_getD numAgents stepLimit K st action perm i hi, hstep]

/-- Witness for C3: the agent of c3State revisits the already-recorded
node 1: action code INVALID_ALREADY_TRAVERSED, it moves to node 1, the
node is appended again, the index advances. -/
theorem C3_already_traversed_moves_witness :
    ((0 : Nat) < 1
      ∧ 0 ≤ (trimDuplicatedInvalidActions 1 c3State [1] [0]).2.getD 0 INVALID_NODE
      ∧ jidx (c3State.connected_nodes_index.getD 0 [])
          ((trimDuplicatedInvalidActions 1 c3State [1] [0]).2.getD 0 INVALID_NODE)
          ≠ EMPTY_NODE
      ∧ c3State.finished_agents.getD 0 false = false)
    ∧ ((envStep 1 4 3 c3State [1] [0]).actions.getD 0 INVALID_CHOICE
        = INVALID_ALREADY_TRAVERSED
      ∧ (envStep 1 4 3 c3State [1] [0]).state.positions.getD 0 0
        = (trimDuplicatedInvalidActions 1 c3State [1] [0]).2.getD 0 INVALID_NODE
      ∧ (envStep 1 4 3 c3State [1] [0]).state.connected_nodes.getD 0 []
        = (c3State.connected_nodes.getD 0 []).set (c3State.position_index.getD 0 0 + 1)
            ((trimDuplicatedInvalidActions 1 c3State [1] [0]).2.getD 0 INVALID_NODE)
      ∧ (envStep 1 4 3 c3State [1] [0]).state.position_index.getD 0 0
        = c3State.position_index.getD 0 0 + 1) :=
  ⟨⟨by decide, by decide, by decide, by decide⟩,
    C3_already_traversed_moves 1 4 3 c3State [1] [0] 0 (by decide) (by decide)
      (by decide) (by decide)⟩

/-- Counterexample for C3 as stated: the agent of c3State requests the
already-visited node 1; the outcome code is ALREADY_TRAVERSED, yet the
position changes and connected_nodes grows, contradicting the claim that
the agent does not move and nothing is appended. -/
theorem C3_already_traversed_counterexample :
    0 ≤ (trimDuplicatedInvalidActions 1 c3State [1] [0]).2.getD 0 INVALID_NODE
    ∧ jidx (c3State.connected_nodes_index.getD 0 [])
        ((trimDuplicatedInvalidActions 1 c3State [1] [0]).2.getD 0 INVALID_NODE)
        ≠ EMPTY_NODE
    ∧ (envStep 1 4 3 c3State [1] [0]).actions.getD 0 INVALID_CHOICE
        = INVALID_ALREADY_TRAVERSED
    ∧ (envStep 1 4 3 c3State [1] [0]).state.positions.getD 0 0
        ≠ c3State.positions.getD 0 0
    ∧ (envStep 1 4 3 c3State [1] [0]).state.connected_nodes.getD 0 []
        ≠ c3State.connected_nodes.getD 0 [] := by
  decide

lemma tieBreakLoop_invalid (numAgents : Nat) (perm : List Nat)
    (actions nodes : List Int) (i : Nat)
    (hnode : nodes.getD i EMPTY_NODE = EMPTY_NODE) :
    (tieBreakLoop numAgents perm actions nodes).2.getD i (-1) = -1 := by
  suffices h : ∀ (P : List Nat) (stp : List Int × List Int),
      stp.2.getD i (-1) = -1 →
      (P.foldl (tieBreakBody actions nodes) stp).2.getD i (-1) = -1 by
    apply h
    exact replicate_invalid_getD _ i
  intro P
  induction P with
  | nil => intro stp h; exact h
  | cons a P ih =>
    intro stp h
    rw [List.foldl_cons]
    apply ih
    rw [tieBreakBody_eq]
    by_cases h1 : nodes.getD a EMPTY_NODE = EMPTY_NODE
    · rw [if_pos h1]
      exact h
    · rw [if_neg h1]
      have hai : a ≠ i := fun he => h1 (he ▸ hnode)
      by_cases h2 : (stp.1.filter (fun x => x = nodes.getD a EMPTY_NODE)).length = 0
      · rw [if_pos h2]
        show (stp.2.set a _).getD i (-1) = -1
        rw [getD_set_ne stp.2 hai]
        exact h
      · rw [if_neg h2]
        show (stp.2.set a _).getD i (-1) = -1
        rw [getD_set_ne stp.2 hai]
        exact h

/-- C7 (amended): an agent whose requested index reads the no-edge
sentinel in its adjacency view keeps the final action code
INVALID_CHOICE and is completely frozen for this step, provided the
visited-check read of its sentinel node (which wraps to the last node
column) also reads empty. -/
theorem C7_invalid_choice_no_move (numAgents stepLimit K : Nat) (st : EnvState)
    (action : List Int) (perm : List Nat) (i : Nat) (hi : i < numAgents)
    (hres : (trimDuplicatedInvalidActions numAgents st action perm).2.getD i
        INVALID_NODE = INVALID_NODE)
    (hvis : jidx (st.connected_nodes_index.getD i [])
        ((trimDuplicatedInvalidActions numAgents st action perm).2.getD i INVALID_NODE)
        = EMPTY_NODE) :
    (envStep numAgents stepLimit K st action perm).actions.getD i INVALID_CHOICE
        = INVALID_CHOICE
    ∧ (envStep numAgents stepLimit K st action perm).state.positions.getD i 0
        = st.positions.getD i 0
    ∧ (envStep numAgents stepLimit K st action perm).state.connected_nodes.getD i []
        = st.connected_nodes.getD i []
    ∧ (envStep numAgents stepLimit K st action perm).state.connected_nodes_index.getD i []
        = st.connected_nodes_index.getD i []
    ∧ (envStep numAgents stepLimit K st action perm).state.position_index.getD i 0
        = st.position_index.getD i 0 := by
  rw [trim_snd] at hres hvis
  have hact : (trimDuplicatedInvalidActions numAgents st action perm).1.getD i
      INVALID_CHOICE = INVALID_CHOICE := by
    by_cases hfin : st.finished_agents.getD i false = true
    · exact trim_finished_action numAgents st action perm i hi hfin
    · rw [trim_fst_getD numAgents st action perm i hi, if_neg hfin, if_neg hfin]
      simp only [mul_one, sub_zero]
      unfold maskVisitedNodes
      rw [if_neg (fun hc => hc hvis)]
      exact tieBreakLoop_invalid numAgents perm action
        (resolveNodes numAgents st.node_edges st.positions action) i hres
  have hstep := stepAgentFn_noop st (st.connected_nodes.getD i [])
    (st.connected_nodes_index.getD i [])
    ((trimDuplicatedInvalidActions numAgents st action perm).1.getD i INVALID_CHOICE)
    ((trimDuplicatedInvalidActions numAgents st action perm).2.getD i INVALID_NODE)
    (st.position_index.getD i 0) i (Or.inl hact)
  refine ⟨?_, ?_, ?_, ?_, ?_⟩
  · rw [envStep_actions]
    exact hact
  · rw [envStep_pos_getD numAgents stepLimit K st action perm i hi, hstep]
  · rw [envStep_cn_getD numAgents stepLimit K st action perm i hi, hstep]
  · rw [envStep_cni_getD numAgents stepLimit K st action perm i hi, hstep]
  · rw [envStep_pidx_getD numAgents stepLimit K st action perm i hi, hstep]

/-- Witness for C7: the agent of c7WitnessState has no edge for its
request and never visited the last node; the outcome is INVALID_CHOICE
and nothing about the agent changes. -/
theorem C7_invalid_choice_no_move_witness :
    ((0 : Nat) < 1
      ∧ (trimDuplicatedInvalidActions 1 c7WitnessState [1] [0]).2.getD 0 INVALID_NODE
          = INVALID_NODE
      ∧ jidx (c7WitnessState.connected_nodes_index.getD 0 [])
          ((trimDuplicatedInvalidActions 1 c7WitnessState [1] [0]).2.getD 0 INVALID_NODE)
          = EMPTY_NODE)
    ∧ ((envStep 1 4 3 c7WitnessState [1] [0]).actions.getD 0 INVALID_CHOICE
        = INVALID_CHOICE
      ∧ (envStep 1 4 3 c7WitnessState [1] [0]).state.positions.getD 0 0
        = c7WitnessState.positions.getD 0 0
      ∧ (envStep 1 4 3 c7WitnessState [1] [0]).state.connected_nodes.getD 0 []
        = c7WitnessState.connected_nodes.getD 0 []
      ∧ (envStep 1 4 3 c7WitnessState [1] [0]).state.connected_nodes_index.getD 0 []
        = c7WitnessState.connected_nodes_index.getD 0 []
      ∧ (envStep 1 4 3 c7WitnessState [1] [0]).state.position_index.getD 0 0
        = c7WitnessState.position_index.getD 0 0) :=
  ⟨⟨by decide, by decide, by decide⟩,
    C7_invalid_choice_no_move 1 4 3 c7WitnessState [1] [0] 0 (by decide) (by decide)
      (by decide)⟩

/-- Counterexample for C7 as stated: the agent of c7State requests the
in-range index 1, which resolves to no edge, yet the outcome code is
INVALID_ALREADY_TRAVERSED rather than INVALID_CHOICE, because the
sentinel destination wraps to the visited last node in the visited
check. -/
theorem C7_invalid_choice_counterexample :
    (trimDuplicatedInvalidActions 1 c7State [1] [0]).2.getD 0 INVALID_NODE
        = INVALID_NODE
    ∧ (envStep 1 4 3 c7State [1] [0]).actions.getD 0 INVALID_CHOICE
        = INVALID_ALREADY_TRAVERSED := by
  decide

lemma envStep_finished (numAgents stepLimit K : Nat) (st : EnvState)
    (action : List Int) (perm : List Nat) :
    (envStep numAgents stepLimit K st action perm).state.finished_agents
      = (List.range numAgents).map (fun agent =>
          doneFun (st.nodes_to_connect.getD agent [])
            ((envStep numAgents stepLimit K st action perm).state.connected_nodes.getD
              agent []) K) := rfl

/-- C8 (amended): a DONE state is absorbing for connected_nodes,
connected_nodes_index and the finished flags: when every agent is
finished and the finished flags agree with the recorded data, a further
step changes none of them. -/
theorem C8_done_absorbing (numAgents stepLimit K : Nat) (st : EnvState)
    (action : List Int) (perm : List Nat)
    (hall : st.finished_agents.all (fun b => b) = true)
    (hlenF : st.finished_agents.length = numAgents)
    (hlenC : st.connected_nodes.length = numAgents)
    (hlenI : st.connected_nodes_index.length = numAgents)
    (hcons : getFinishedAgents numAgents st K = st.finished_agents) :
    (envStep numAgents stepLimit K st action perm).state.connected_nodes
        = st.connected_nodes
    ∧ (envStep numAgents stepLimit K st action perm).state.connected_nodes_index
        = st.connected_nodes_index
    ∧ (envStep numAgents stepLimit K st action perm).state.finished_agents
        = st.finished_agents := by
  have hfin : ∀ i, i < numAgents → st.finished_agents.getD i false = true := by
    intro i hiA
    have hmem : st.finished_agents.getD i false ∈ st.finished_agents :=
      getD_mem _ (by omega) _
    simpa using List.all_eq_true.mp hall _ hmem
  have hstep : ∀ i, i < numAgents →
      stepAgentFn st (st.connected_nodes.getD i [])
        (st.connected_nodes_index.getD i [])
        ((trimDuplicatedInvalidActions numAgents st action perm).1.getD i
          INVALID_CHOICE)
        ((trimDuplicatedInvalidActions numAgents st action perm).2.getD i INVALID_NODE)
        (st.position_index.getD i 0) i
      = (st.connected_nodes.getD i [], st.connected_nodes_index.getD i [],
          st.positions.getD i 0, st.position_index.getD i 0) := by
    intro i hiA
    exact stepAgentFn_noop st _ _ _ _ _ i
      (Or.inl (trim_finished_action numAgents st action perm i hiA (hfin i hiA)))
  have hcn : (envStep numAgents stepLimit K st action perm).state.connected_nodes
      = st.connected_nodes := by
    rw [(envStep_upd numAgents stepLimit K st action perm).1, List.map_map]
    apply List.ext_getElem
    · simp [hlenC]
    · intro n h1 h2
      have hnA : n < numAgents := by simpa using h1
      rw [List.getElem_map, List.getElem_range]
      show (stepAgentFn st (st.connected_nodes.getD n [])
        (st.connected_nodes_index.getD n [])
        ((trimDuplicatedInvalidActions numAgents st action perm).1.getD n
          INVALID_CHOICE)
        ((trimDuplicatedInvalidActions numAgents st action perm).2.getD n INVALID_NODE)
        (st.position_index.getD n 0) n).1 = st.connected_nodes[n]
      rw [hstep n hnA]
      exact List.getD_eq_getElem st.connected_nodes [] h2
  have hci : (envStep numAgents stepLimit K st action perm).state.connected_nodes_index
      = st.connected_nodes_index := by
    rw [(envStep_upd numAgents stepLimit K st action perm).2.1, List.map_map]
    apply List.ext_getElem
    · simp [hlenI]
    · intro n h1 h2
      have hnA : n < numAgents := by simpa using h1
      rw [List.getElem_map, List.getElem_range]
      show (stepAgentFn st (st.connected_nodes.getD n [])
        (st.connected_nodes_index.getD n [])
        ((trimDuplicatedInvalidActions numAgents st action perm).1.getD n
          INVALID_CHOICE)
        ((trimDuplicatedInvalidActions numAgents st action perm).2.getD n INVALID_NODE)
        (st.position_index.getD n 0) n).2.1 = st.connected_nodes_index[n]
      rw [hstep n hnA]
      exact List.getD_eq_getElem st.connected_nodes_index [] h2
  refine ⟨hcn, hci, ?_⟩
  rw [envStep_finished numAgents stepLimit K st action perm, hcn]
  exact hcons

/-- Witness for C8: stepping the consistent all-finished state
c8DoneState changes neither connected_nodes nor connected_nodes_index
nor the finished flags. -/
theorem C8_done_absorbing_witness :
    (c8DoneState.finished_agents.all (fun b => b) = true
      ∧ c8DoneState.finished_agents.length = 1
      ∧ c8DoneState.connected_nodes.length = 1
      ∧ c8DoneState.connected_nodes_index.length = 1
      ∧ getFinishedAgents 1 c8DoneState 1 = c8DoneState.finished_agents)
    ∧ ((envStep 1 5 1 c8DoneState [1] [0]).state.connected_nodes
        = c8DoneState.connected_nodes
      ∧ (envStep 1 5 1 c8DoneState [1] [0]).state.connected_nodes_index
        = c8DoneState.connected_nodes_index
      ∧ (envStep 1 5 1 c8DoneState [1] [0]).state.finished_agents
        = c8DoneState.finished_agents) :=
  ⟨⟨by decide, by decide, by decide, by decide, by decide⟩,
    C8_done_absorbing 1 5 1 c8DoneState [1] [0] (by decide) (by decide) (by decide)
      (by decide) (by decide)⟩

/-- Counterexample for C8 as stated: the step on c8State returns a
TRUNCATED timestep, yet stepping the resulting state again changes
connected_nodes (the unfinished agent still moves). -/
theorem C8_truncated_not_absorbing_counterexample :
    (envStep 1 2 3 c8State [2] [0]).kind = StepKind.truncation
    ∧ (envStep 1 2 3 (envStep 1 2 3 c8State [2] [0]).state [1] [0]).state.connected_nodes
      ≠ (envStep 1 2 3 c8State [2] [0]).state.connected_nodes := by
  decide

/-- C10: the bounded buffer is exceeded at the failing input c10State
(reachable by resetting with the initial node at slot 0 and accepting one
move per step with step_limit = 2): the final step's accepted node 2 must
be appended at index 2 = step_limit, the scatter write is dropped, so the
accepted node is missing from connected_nodes even though the position,
the index counter and connected_nodes_index all advance, and the agent is
not marked finished although it visited all its target nodes. -/
theorem C10_buffer_append_dropped :
    0 ≤ (envStep 1 2 3 c10State [2] [0]).actions.getD 0 INVALID_CHOICE
    ∧ (envStep 1 2 3 c10State [2] [0]).state.position_index = [2]
    ∧ (envStep 1 2 3 c10State [2] [0]).state.positions = [2]
    ∧ (envStep 1 2 3 c10State [2] [0]).state.connected_nodes = [[0, 1]]
    ∧ ¬(2 : Int) ∈ (envStep 1 2 3 c10State [2] [0]).state.connected_nodes.getD 0 []
    ∧ (envStep 1 2 3 c10State [2] [0]).state.connected_nodes_index = [[0, 1, 2]]
    ∧ (envStep 1 2 3 c10State [2] [0]).state.finished_agents = [false]
    ∧ (envStep 1 2 3 c10State [2] [0]).kind = StepKind.truncation := by
  decide

end CMST
